import Mathlib

/-!
Shallow embedding of `package_control/clients/bitbucket_client.py`
(`BitBucketClient`) and proofs about its two public operations,
`download_info` and `repo_info`.

Modelling choices:
* Parsed JSON values are an inductive `Json`; the fetch collaborator
  (`fetch_json(url, prefer_cached)`) is an injected oracle
  `Fetch : String → Bool → Except Err Json`.  Transport and parsing
  failures are `Err.downloader` / `Err.client`; a missing key or an
  unexpectedly-shaped value (Python's loud `KeyError` / `TypeError` /
  `AttributeError`) is `Err.shape`.
* The three anchored regexes of the source are translated by hand,
  preserving greedy `[^/]+` / `[^#/]+` semantics, the optional trailing
  slash, the unescaped `.` of `bitbucket.org` (which matches any
  character), and Python's `$` (end of string, or just before one final
  newline).
* `self.settings.get('install_prereleases')` is the boolean parameter
  `pre`.
* `version_filter` / `version_sort` live in the `versions` module, which
  is not among the sources; they are modelled from the spec (see their
  doc comments).
-/

/-- Parsed JSON value returned by the fetch collaborator. -/
inductive Json where
  | null : Json
  | bool (b : Bool) : Json
  | num (n : Int) : Json
  | str (s : String) : Json
  | arr (elems : List Json) : Json
  | obj (fields : List (String × Json)) : Json

/-- Errors: `downloader` (DownloaderException) and `client`
(ClientException) belong to the fetch collaborator; `shape` stands for
the uncaught Python exception raised when a fetched structure misses an
expected key or has an unexpected type. -/
inductive Err where
  | downloader (msg : String) : Err
  | client (msg : String) : Err
  | shape (msg : String) : Err
  deriving Repr, DecidableEq

/-- The fetch collaborator: `fetch_json(url, prefer_cached)`. -/
abbrev Fetch := String → Bool → Except Err Json

/-- Association-list lookup used for JSON object field access. -/
def Json.lookup : List (String × Json) → String → Option Json
  | [], _ => none
  | (k, v) :: rest, key => if k = key then some v else Json.lookup rest key

/-- `j[k]`: field access on a fetched structure; fails loudly when the
key is absent or the value is not an object. -/
def Json.getField : Json → String → Except Err Json
  | .obj fields, k =>
      match Json.lookup fields k with
      | some v => Except.ok v
      | none => Except.error (Err.shape k)
  | _, k => Except.error (Err.shape k)

/-- `d.keys()`: the key list of a JSON object, in insertion order
(Python dict order); fails loudly on a non-object. -/
def Json.keysE : Json → Except Err (List String)
  | .obj fields => Except.ok (fields.map Prod.fst)
  | _ => Except.error (Err.shape "keys")

/-- Python truthiness of a JSON value (`if not x`, `x or y`). -/
def Json.truthy : Json → Bool
  | .null => false
  | .bool b => b
  | .num n => n != 0
  | .str s => s != ""
  | .arr elems => !elems.isEmpty
  | .obj fields => !fields.isEmpty

/-- Python `x or y` on a JSON value with a string fallback. -/
def Json.pyOr (a b : Json) : Json := if a.truthy then a else b

/-- Python `'%s' % x` rendering.  Strings render as themselves (the only
case the claims exercise); scalars render as Python would; the `repr`
of containers is abstracted (no claim depends on it). -/
def Json.pyStr : Json → String
  | .str s => s
  | .bool true => "True"
  | .bool false => "False"
  | .null => "None"
  | .num n => toString n
  | .arr _ => ""
  | .obj _ => ""

/-- Consume the literal `lit` from the front of `s`. -/
def dropLit : List Char → List Char → Option (List Char)
  | [], s => some s
  | _ :: _, [] => none
  | c :: cs, r :: rs => if r = c then dropLit cs rs else none

/-- Consume `https?://bitbucket.org/` from the front of the URL.  The
`s` of `https?` is taken greedily (never ambiguous, since `:` ≠ `s`),
and the unescaped `.` of the regex matches any single character. -/
def dropSchemeHost (s : List Char) : Option (List Char) :=
  match dropLit "http".data s with
  | none => none
  | some r₀ =>
      let r₁ := match r₀ with
        | 's' :: r => r
        | _ => r₀
      match dropLit "://bitbucket".data r₁ with
      | none => none
      | some [] => none
      | some (_ :: r₂) => dropLit "org/".data r₂

/-- Python's `$`: end of string, or just before one final newline. -/
def dollarEnd : List Char → Bool
  | [] => true
  | ['\n'] => true
  | _ => false

/-- `re.match('https?://bitbucket.org/([^/]+/[^/]+)/?$', url)`: the
captured `user/repo` group, or `none`. -/
def repoMatch (url : String) : Option String :=
  match dropSchemeHost url.data with
  | none => none
  | some rest =>
      let user := rest.takeWhile (· != '/')
      let r₁ := rest.dropWhile (· != '/')
      if user.isEmpty then none else
      match r₁ with
      | '/' :: r₂ =>
          let repo := r₂.takeWhile (· != '/')
          let r₃ := r₂.dropWhile (· != '/')
          if repo.isEmpty then none else
          match r₃ with
          | [] => some (String.mk (user ++ '/' :: repo))
          | '/' :: r₄ =>
              if dollarEnd r₄ then some (String.mk (user ++ '/' :: repo)) else none
          | _ => none
      | _ => none

/-- `re.match('https?://bitbucket.org/([^/]+/[^/]+)/src/([^/]+)/?$', url)`:
the captured `(user/repo, branch)` groups, or `none`. -/
def branchMatch (url : String) : Option (String × String) :=
  match dropSchemeHost url.data with
  | none => none
  | some rest =>
      let user := rest.takeWhile (· != '/')
      let r₁ := rest.dropWhile (· != '/')
      if user.isEmpty then none else
      match r₁ with
      | '/' :: r₂ =>
          let repo := r₂.takeWhile (· != '/')
          let r₃ := r₂.dropWhile (· != '/')
          if repo.isEmpty then none else
          match dropLit "/src/".data r₃ with
          | none => none
          | some r₄ =>
              let branch := r₄.takeWhile (· != '/')
              let r₅ := r₄.dropWhile (· != '/')
              if branch.isEmpty then none else
              match r₅ with
              | [] => some (String.mk (user ++ '/' :: repo), String.mk branch)
              | '/' :: r₆ =>
                  if dollarEnd r₆ then
                    some (String.mk (user ++ '/' :: repo), String.mk branch)
                  else none
              | _ => none
      | _ => none

/-- `re.match('https?://bitbucket.org/([^/]+/[^#/]+)/?#tags$', url)`:
the captured `user/repo` group, or `none`. -/
def tagsMatch (url : String) : Option String :=
  match dropSchemeHost url.data with
  | none => none
  | some rest =>
      let user := rest.takeWhile (· != '/')
      let r₁ := rest.dropWhile (· != '/')
      if user.isEmpty then none else
      match r₁ with
      | '/' :: r₂ =>
          let repo := r₂.takeWhile (fun c => c != '/' && c != '#')
          let r₃ := r₂.dropWhile (fun c => c != '/' && c != '#')
          if repo.isEmpty then none else
          let r₄ := match r₃ with
            | '/' :: r => r
            | _ => r₃
          match dropLit "#tags".data r₄ with
          | none => none
          | some r₅ =>
              if dollarEnd r₅ then some (String.mk (user ++ '/' :: repo)) else none
      | _ => none

/-- `BitBucketClient._make_api_url`. -/
def makeApiUrl (user_repo suffix : String) : String :=
  "https://api.bitbucket.org/1.0/repositories/" ++ user_repo ++ suffix

/-- Numeric component of a version string. -/
def parseNatL (cs : List Char) : Option Nat :=
  if cs ≠ [] ∧ cs.all (·.isDigit) then
    some (cs.foldl (fun n c => n * 10 + (c.toNat - 48)) 0)
  else none

/-- Split a character list on `.` separators. -/
def splitOnDot : List Char → List (List Char)
  | [] => [[]]
  | c :: rest =>
      let r := splitOnDot rest
      if c = '.' then [] :: r
      else
        match r with
        | [] => [[c]]
        | h :: t => (c :: h) :: t

/-- Strip one leading `v`, as `re.sub('^v', '', s)` does. -/
def stripVL : List Char → List Char
  | 'v' :: rest => rest
  | cs => cs

/-- `re.sub('^v', '', commit)` from `_commit_info`. -/
def stripLeadingV (s : String) : String := String.mk (stripVL s.data)

/-- A semantic version: `major.minor.patch` with an optional prerelease
suffix. -/
structure SemVer where
  major : Nat
  minor : Nat
  patch : Nat
  pre : Option String
  deriving Repr, DecidableEq

/-- Modelled from the spec: the `versions` module the client imports is
not among the sources.  Per the spec, strings not parseable as
(possibly `v`-prefixed) semantic versions are dropped by the filter, so
this parses `[v]major.minor.patch[-prerelease]`. -/
def parseSemVerL (cs : List Char) : Option SemVer :=
  let core := cs.takeWhile (· != '-')
  let pre : Option String :=
    if core.length < cs.length then some (String.mk ((cs.drop core.length).drop 1))
    else none
  match splitOnDot core with
  | [a, b, c] =>
      match parseNatL a, parseNatL b, parseNatL c with
      | some x, some y, some z => some ⟨x, y, z, pre⟩
      | _, _, _ => none
  | _ => none

/-- Modelled from the spec: semantic-version parse of a tag name. -/
def parseSemVer? (s : String) : Option SemVer := parseSemVerL (stripVL s.data)

/-- Lexicographic `≤` on character lists (prerelease tie-break). -/
def charListLe : List Char → List Char → Bool
  | [], _ => true
  | _ :: _, [] => false
  | a :: as, b :: bs => if a = b then charListLe as bs else decide (a < b)

/-- Modelled from the spec: prerelease ordering — a release sorts above
any prerelease of the same numeric triple. -/
def preLe : Option String → Option String → Bool
  | none, none => true
  | none, some _ => false
  | some _, none => true
  | some a, some b => charListLe a.data b.data

/-- Modelled from the spec: `≤` on semantic versions. -/
def semVerLe (a b : SemVer) : Bool :=
  if a.major ≠ b.major then decide (a.major < b.major)
  else if a.minor ≠ b.minor then decide (a.minor < b.minor)
  else if a.patch ≠ b.patch then decide (a.patch < b.patch)
  else preLe a.pre b.pre

/-- Modelled from the spec: sort key of a tag string (only parseable
strings reach the sort, the filter having run first). -/
def semVerKey (s : String) : SemVer :=
  match parseSemVer? s with
  | some v => v
  | none => ⟨0, 0, 0, none⟩

/-- Modelled from the spec: `version_filter(collection, allow_prereleases)`
from the `versions` module — strings not parseable as semantic versions
are dropped, and prereleases are dropped unless allowed. -/
def version_filter (xs : List String) (allowPre : Bool) : List String :=
  xs.filter fun s =>
    match parseSemVer? s with
    | none => false
    | some v => allowPre || v.pre.isNone

/-- Insertion into a list ascending by semantic version. -/
def insertAsc (x : String) : List String → List String
  | [] => [x]
  | y :: ys => if semVerLe (semVerKey x) (semVerKey y) then x :: y :: ys else y :: insertAsc x ys

/-- Modelled from the spec: `version_sort(collection, reverse)` from the
`versions` module — standard semantic-version ordering. -/
def version_sort (xs : List String) (reverse : Bool) : List String :=
  let asc := xs.foldr insertAsc []
  if reverse then asc.reverse else asc

/-- The module-level `_readme_filenames` allow-list. -/
def _readme_filenames : List String :=
  ["readme", "readme.txt", "readme.md", "readme.mkd", "readme.mdown",
   "readme.markdown", "readme.textile", "readme.creole", "readme.rst"]

/-- Python `str.lower()` (ASCII, which covers the allow-list). -/
def lowerStr (s : String) : String := String.mk (s.data.map Char.toLower)

/-- Python slice `s[0:19]`. -/
def takeStr (n : Nat) (s : String) : String := String.mk (s.data.take n)

/-- `re.sub('[\-: ]', '.', commit_date)` from `_commit_info`. -/
def synthVersion (s : String) : String :=
  String.mk (s.data.map fun c => if c = '-' ∨ c = ':' ∨ c = ' ' then '.' else c)

/-- `BitBucketClient._main_branch_name`: fetch `/main-branch` (with
`prefer_cached`) and return its `name` field, rendered as the string it
is interpolated as downstream. -/
def mainBranchName (env : Fetch) (user_repo : String) : Except Err String :=
  match env (makeApiUrl user_repo "/main-branch") true with
  | Except.error e => Except.error e
  | Except.ok info =>
      match info.getField "name" with
      | Except.error e => Except.error e
      | Except.ok name => Except.ok name.pyStr

/-- `BitBucketClient._user_repo_branch`: `(user/repo, branch)` from the
URL, `none` when neither pattern matches. -/
def userRepoBranch (env : Fetch) (url : String) : Except Err (Option (String × String)) :=
  match repoMatch url with
  | some user_repo =>
      match mainBranchName env user_repo with
      | Except.error e => Except.error e
      | Except.ok branch => Except.ok (some (user_repo, branch))
  | none =>
      match branchMatch url with
      | some (user_repo, branch) => Except.ok (some (user_repo, branch))
      | none => Except.ok none

/-- The three-way result of `_commit_info` / `download_info`:
Python's `None` (`noMatch`), `False` (`noCommit`), or a dict. -/
inductive ClientResult (α : Type) where
  | noMatch : ClientResult α
  | noCommit : ClientResult α
  | found (a : α) : ClientResult α
  deriving Repr, DecidableEq

/-- The dict `_commit_info` returns in its found case. -/
structure CommitInfo where
  user_repo : String
  timestamp : String
  commit : String
  version : String
  deriving Repr, DecidableEq

/-- The dict `download_info` returns in its found case. -/
structure DownloadInfo where
  version : String
  url : String
  date : String
  deriving Repr, DecidableEq

/-- The tail of `_commit_info` shared by both branches: fetch
`/changesets/{commit}`, slice the timestamp to 19 characters, and
compute `version` (a falsy — `None` or empty — tag version falls back
to the timestamp-derived one).  Slicing is modelled for string
timestamps; any other shape fails loudly. -/
def finishCommit (env : Fetch) (user_repo commit : String) (version? : Option String) :
    Except Err (ClientResult CommitInfo) :=
  match env (makeApiUrl user_repo ("/changesets/" ++ commit)) false with
  | Except.error e => Except.error e
  | Except.ok ci =>
      match ci.getField "timestamp" with
      | Except.error e => Except.error e
      | Except.ok (Json.str s) =>
          let commit_date := takeStr 19 s
          let version :=
            match version? with
            | some v => if v ≠ "" then v else synthVersion commit_date
            | none => synthVersion commit_date
          Except.ok (ClientResult.found ⟨user_repo, commit_date, commit, version⟩)
      | Except.ok _ => Except.error (Err.shape "timestamp-slice")

/-- `BitBucketClient._commit_info`. -/
def commit_info (env : Fetch) (pre : Bool) (url : String) :
    Except Err (ClientResult CommitInfo) :=
  match tagsMatch url with
  | some user_repo =>
      match env (makeApiUrl user_repo "/tags") false with
      | Except.error e => Except.error e
      | Except.ok tags_list =>
          match tags_list.keysE with
          | Except.error e => Except.error e
          | Except.ok ks =>
              match version_sort (version_filter ks pre) true with
              | [] => Except.ok ClientResult.noCommit
              | commit :: _ =>
                  finishCommit env user_repo commit (some (stripLeadingV commit))
  | none =>
      match userRepoBranch env url with
      | Except.error e => Except.error e
      | Except.ok none => Except.ok ClientResult.noMatch
      | Except.ok (some (user_repo, commit)) => finishCommit env user_repo commit none

/-- `BitBucketClient.download_info`. -/
def download_info (env : Fetch) (pre : Bool) (url : String) :
    Except Err (ClientResult DownloadInfo) :=
  match commit_info env pre url with
  | Except.error e => Except.error e
  | Except.ok ClientResult.noMatch => Except.ok ClientResult.noMatch
  | Except.ok ClientResult.noCommit => Except.ok ClientResult.noCommit
  | Except.ok (ClientResult.found ci) =>
      Except.ok (ClientResult.found
        ⟨ci.version,
         "https://bitbucket.org/" ++ ci.user_repo ++ "/get/" ++ ci.commit ++ ".zip",
         ci.timestamp⟩)

/-- The scan loop of `_readme_url` over the `files` entries. -/
def scanEntries (user_repo branch : String) : List Json → Except Err (Option String)
  | [] => Except.ok none
  | entry :: rest =>
      match entry.getField "path" with
      | Except.error e => Except.error e
      | Except.ok (Json.str path) =>
          if lowerStr path ∈ _readme_filenames then
            Except.ok (some ("https://bitbucket.org/" ++ user_repo ++ "/raw/" ++
              branch ++ "/" ++ path))
          else scanEntries user_repo branch rest
      | Except.ok _ => Except.error (Err.shape "path-lower")

/-- `BitBucketClient._readme_url`. -/
def readmeUrl (env : Fetch) (user_repo branch : String) (prefer_cached : Bool) :
    Except Err (Option String) :=
  match env (makeApiUrl user_repo ("/src/" ++ branch ++ "/")) prefer_cached with
  | Except.error e => Except.error e
  | Except.ok root =>
      match root.getField "files" with
      | Except.error e => Except.error e
      | Except.ok (Json.arr entries) => scanEntries user_repo branch entries
      | Except.ok _ => Except.error (Err.shape "files-iter")

/-- The dict `repo_info` returns. -/
structure RepoInfo where
  name : Json
  description : Json
  homepage : Json
  author : Json
  donate : String
  readme : Option String
  issues : Option String

/-- `BitBucketClient.repo_info`, field accesses performed in the source
order of the returned dict literal. -/
def repo_info (env : Fetch) (url : String) : Except Err (Option RepoInfo) :=
  match userRepoBranch env url with
  | Except.error e => Except.error e
  | Except.ok none => Except.ok none
  | Except.ok (some (user_repo, branch)) =>
      match env (makeApiUrl user_repo "") false with
      | Except.error e => Except.error e
      | Except.ok info =>
          match info.getField "name" with
          | Except.error e => Except.error e
          | Except.ok name =>
              match info.getField "description" with
              | Except.error e => Except.error e
              | Except.ok descr =>
                  match info.getField "website" with
                  | Except.error e => Except.error e
                  | Except.ok website =>
                      match info.getField "owner" with
                      | Except.error e => Except.error e
                      | Except.ok owner =>
                          match readmeUrl env user_repo branch false with
                          | Except.error e => Except.error e
                          | Except.ok readme =>
                              match info.getField "has_issues" with
                              | Except.error e => Except.error e
                              | Except.ok has_issues =>
                                  Except.ok (some
                                    { name := name,
                                      description :=
                                        descr.pyOr (Json.str "No description provided"),
                                      homepage := website.pyOr (Json.str url),
                                      author := owner,
                                      donate := "https://www.gittip.com/on/bitbucket/" ++
                                        owner.pyStr ++ "/",
                                      readme := readme,
                                      issues :=
                                        if has_issues.truthy then
                                          some ("https://bitbucket.org/" ++ user_repo ++
                                            "/issues")
                                        else none })

/-- Concrete oracle: a repo whose default branch is `master` and whose
latest `master` changeset carries the ISO `T`-separated timestamp of the
spec's example. -/
def envTstamp : Fetch := fun u _ =>
  if u = "https://api.bitbucket.org/1.0/repositories/user/repo/main-branch" then
    Except.ok (Json.obj [("name", Json.str "master")])
  else if u = "https://api.bitbucket.org/1.0/repositories/user/repo/changesets/master" then
    Except.ok (Json.obj [("timestamp", Json.str "2014-03-12T10:00:00+00:00")])
  else Except.error (Err.downloader "unexpected fetch")

/-- Concrete oracle: a tag listing none of whose tag names parses as a
semantic version. -/
def envNoSemverTags : Fetch := fun u _ =>
  if u = "https://api.bitbucket.org/1.0/repositories/u/r/tags" then
    Except.ok (Json.obj [("tip", Json.null), ("release", Json.null)])
  else Except.error (Err.downloader "unexpected fetch")

/-- Concrete oracle: three `v`-prefixed semver tags and the changeset of
the highest one. -/
def envVTags : Fetch := fun u _ =>
  if u = "https://api.bitbucket.org/1.0/repositories/u/r/tags" then
    Except.ok (Json.obj
      [("v1.0.0", Json.null), ("v2.0.0", Json.null), ("v1.5.0", Json.null)])
  else if u = "https://api.bitbucket.org/1.0/repositories/u/r/changesets/v2.0.0" then
    Except.ok (Json.obj [("timestamp", Json.str "2014-03-12 10:00:00")])
  else Except.error (Err.downloader "unexpected fetch")

/-- Concrete oracle: repository metadata with empty description and
website, issue tracking enabled, and a root listing holding `setup.py`
and a mixed-case `README.MD`. -/
def envRepo : Fetch := fun u _ =>
  if u = "https://api.bitbucket.org/1.0/repositories/u/r/main-branch" then
    Except.ok (Json.obj [("name", Json.str "master")])
  else if u = "https://api.bitbucket.org/1.0/repositories/u/r" then
    Except.ok (Json.obj
      [("name", Json.str "r"), ("description", Json.str ""), ("website", Json.str ""),
       ("owner", Json.str "alice"), ("has_issues", Json.bool true)])
  else if u = "https://api.bitbucket.org/1.0/repositories/u/r/src/master/" then
    Except.ok (Json.obj [("files", Json.arr
      [Json.obj [("path", Json.str "setup.py")],
       Json.obj [("path", Json.str "README.MD")]])])
  else Except.error (Err.downloader "unexpected fetch")

/-- Concrete oracle for the repo whose name the repo-root pattern parses
as `repo#tags`: default-branch, metadata and listing fetches all answer
under that name. -/
def envHashRepo : Fetch := fun u _ =>
  if u = "https://api.bitbucket.org/1.0/repositories/user/repo#tags/main-branch" then
    Except.ok (Json.obj [("name", Json.str "default")])
  else if u = "https://api.bitbucket.org/1.0/repositories/user/repo#tags" then
    Except.ok (Json.obj
      [("name", Json.str "repo"), ("description", Json.str "d"), ("website", Json.str "w"),
       ("owner", Json.str "user"), ("has_issues", Json.bool false)])
  else if u = "https://api.bitbucket.org/1.0/repositories/user/repo#tags/src/default/" then
    Except.ok (Json.obj [("files", Json.arr [])])
  else Except.error (Err.downloader "unexpected fetch")

/-- Concrete oracle on which every fetch fails with the same transport
error. -/
def envFail : Fetch := fun _ _ => Except.error (Err.downloader "boom")

/-- Concrete oracle whose early fetches (tag listing, default branch,
repository metadata) succeed while the later ones (changesets, root
listing) fail: exercises error propagation from a fetch performed after
earlier successful ones. -/
def envLateFail : Fetch := fun u _ =>
  if u = "https://api.bitbucket.org/1.0/repositories/u/r/tags" then
    Except.ok (Json.obj [("v1.0.0", Json.null)])
  else if u = "https://api.bitbucket.org/1.0/repositories/u/r/main-branch" then
    Except.ok (Json.obj [("name", Json.str "master")])
  else if u = "https://api.bitbucket.org/1.0/repositories/u/r" then
    Except.ok (Json.obj
      [("name", Json.str "r"), ("description", Json.str ""), ("website", Json.str ""),
       ("owner", Json.str "alice"), ("has_issues", Json.bool true)])
  else Except.error (Err.downloader "late boom")

/-- An empty character list parses as no semantic version. -/
theorem parseSemVerL_nil : parseSemVerL [] = none := rfl

/-- A string that parses as a semantic version is nonempty once the
leading `v` is stripped. -/
theorem stripLeadingV_ne_empty {s : String} {v : SemVer}
    (h : parseSemVer? s = some v) : stripLeadingV s ≠ "" := by
  intro hempty
  have hnil : stripVL s.data = [] := congrArg String.data hempty
  rw [parseSemVer?, hnil, parseSemVerL_nil] at h
  cases h

/-- Insertion produces no new elements. -/
theorem mem_insertAsc {z x : String} :
    ∀ {l : List String}, z ∈ insertAsc x l → z = x ∨ z ∈ l := by
  intro l
  induction l with
  | nil =>
      intro h
      simp [insertAsc] at h
      exact Or.inl h
  | cons y ys ih =>
      intro h
      rw [insertAsc] at h
      split at h
      · rcases List.mem_cons.mp h with h | h
        · exact Or.inl h
        · exact Or.inr h
      · rcases List.mem_cons.mp h with h | h
        · exact Or.inr (h ▸ List.mem_cons_self y ys)
        · rcases ih h with h | h
          · exact Or.inl h
          · exact Or.inr (List.mem_cons_of_mem y h)

/-- The ascending insertion sort produces no new elements. -/
theorem mem_sortAsc {z : String} :
    ∀ {xs : List String}, z ∈ xs.foldr insertAsc [] → z ∈ xs := by
  intro xs
  induction xs with
  | nil => intro h; simp at h
  | cons x rest ih =>
      intro h
      rcases mem_insertAsc h with h | h
      · exact h ▸ List.mem_cons_self x rest
      · exact List.mem_cons_of_mem x (ih h)

/-- `version_sort` produces no new elements. -/
theorem mem_version_sort {z : String} {xs : List String} {b : Bool}
    (h : z ∈ version_sort xs b) : z ∈ xs := by
  unfold version_sort at h
  cases b with
  | true => simp only [if_true] at h; exact mem_sortAsc (List.mem_reverse.mp h)
  | false => simp only [if_false] at h; exact mem_sortAsc h

/-- Everything `version_filter` keeps parses as a semantic version. -/
theorem parse_of_mem_filter {t : String} {xs : List String} {p : Bool}
    (h : t ∈ version_filter xs p) : ∃ v, parseSemVer? t = some v := by
  unfold version_filter at h
  have hp := List.of_mem_filter h
  cases hv : parseSemVer? t with
  | none => rw [hv] at hp; cases hp
  | some v => exact ⟨v, rfl⟩

/-- Inverting the shared `_commit_info` tail: a found result records the
changeset fetch and its sliced string timestamp. -/
theorem finishCommit_found {env : Fetch} {ur c : String} {v? : Option String}
    {ci : CommitInfo}
    (h : finishCommit env ur c v? = Except.ok (ClientResult.found ci)) :
    ci.user_repo = ur ∧ ci.commit = c ∧
    ∃ j ts, env (makeApiUrl ur ("/changesets/" ++ c)) false = Except.ok j
      ∧ j.getField "timestamp" = Except.ok (Json.str ts)
      ∧ ci.timestamp = takeStr 19 ts := by
  unfold finishCommit at h
  split at h
  · cases h
  · rename_i cj hf
    split at h
    · cases h
    · rename_i s hg
      simp only [Except.ok.injEq, ClientResult.found.injEq] at h
      subst h
      exact ⟨rfl, rfl, cj, s, hf, hg, rfl⟩
    · cases h

/-- Inverting `_commit_info`: a found result records a changeset fetch
for the resolved repo and commit, and the sliced timestamp. -/
theorem commit_info_found {env : Fetch} {pre : Bool} {url : String} {ci : CommitInfo}
    (h : commit_info env pre url = Except.ok (ClientResult.found ci)) :
    ∃ j ts, env (makeApiUrl ci.user_repo ("/changesets/" ++ ci.commit)) false = Except.ok j
      ∧ j.getField "timestamp" = Except.ok (Json.str ts)
      ∧ ci.timestamp = takeStr 19 ts := by
  unfold commit_info at h
  split at h
  · split at h
    · cases h
    · split at h
      · cases h
      · split at h
        · simp at h
        · obtain ⟨h1, h2, j, s, hj, hg, hts⟩ := finishCommit_found h
          exact ⟨j, s, by rw [h1, h2]; exact hj, hg, hts⟩
  · split at h
    · cases h
    · simp at h
    · obtain ⟨h1, h2, j, s, hj, hg, hts⟩ := finishCommit_found h
      exact ⟨j, s, by rw [h1, h2]; exact hj, hg, hts⟩

/-- `_user_repo_branch` answers `(None, None)` only when the repo-root
pattern fails. -/
theorem userRepoBranch_ok_none {env : Fetch} {url : String}
    (h : userRepoBranch env url = Except.ok none) : repoMatch url = none := by
  unfold userRepoBranch at h
  split at h
  · split at h
    · cases h
    · simp at h
  · rename_i hr
    exact hr

/-- `repo_info` answers `None` only when `_user_repo_branch` does. -/
theorem repo_info_ok_none {env : Fetch} {url : String}
    (h : repo_info env url = Except.ok none) :
    userRepoBranch env url = Except.ok none := by
  unfold repo_info at h
  split at h
  · cases h
  · rename_i hu
    exact hu
  · repeat' split at h
    all_goals simp at h

/-- C1 (amended): for a repo-root or repo+branch URL — one that is not a
tag-listing URL — `download_info` synthesizes the version from the
fetched commit timestamp by truncating it to 19 characters and replacing
every `-`, `:` and space with `.`; the `T` of an ISO `T`-separated
timestamp is left untouched, so `"2014-03-12T10:00:00+00:00"` yields
`"2014.03.12T10.00.00"` (a space-separated timestamp
`"2014-03-12 10:00:00+00:00"` yields `"2014.03.12.10.00.00"`). -/
theorem download_info_version_synthesized_from_timestamp
    (env : Fetch) (pre : Bool) (url ur commit : String) (j : Json) (ts : String)
    (h1 : tagsMatch url = none)
    (h2 : userRepoBranch env url = Except.ok (some (ur, commit)))
    (h3 : env (makeApiUrl ur ("/changesets/" ++ commit)) false = Except.ok j)
    (h4 : j.getField "timestamp" = Except.ok (Json.str ts)) :
    download_info env pre url =
      Except.ok (ClientResult.found
        ⟨synthVersion (takeStr 19 ts),
         "https://bitbucket.org/" ++ ur ++ "/get/" ++ commit ++ ".zip",
         takeStr 19 ts⟩)
    ∧ synthVersion (takeStr 19 "2014-03-12T10:00:00+00:00") = "2014.03.12T10.00.00"
    ∧ synthVersion (takeStr 19 "2014-03-12 10:00:00+00:00") = "2014.03.12.10.00.00" := by
  refine ⟨?_, by rfl, by rfl⟩
  simp only [download_info, commit_info, finishCommit, h1, h2, h3, h4]

/-- C1, counterexample to the claim as stated: with the commit timestamp
`"2014-03-12T10:00:00+00:00"` the synthesized version is
`"2014.03.12T10.00.00"`, because the substitution touches only `-`, `:`
and space — not the claimed `"2014.03.12.10.00.00"`. -/
theorem download_info_iso_example_counterexample :
    download_info envTstamp false "https://bitbucket.org/user/repo" =
      Except.ok (ClientResult.found
        ⟨"2014.03.12T10.00.00", "https://bitbucket.org/user/repo/get/master.zip",
         "2014-03-12T10:00:00"⟩)
    ∧ "2014.03.12T10.00.00" ≠ "2014.03.12.10.00.00" :=
  ⟨by rfl, by decide⟩

/-- C1, witness for the amended theorem at the concrete oracle. -/
theorem download_info_version_synthesized_from_timestamp_witness :
    download_info envTstamp false "https://bitbucket.org/user/repo" =
      Except.ok (ClientResult.found
        ⟨synthVersion (takeStr 19 "2014-03-12T10:00:00+00:00"),
         "https://bitbucket.org/" ++ "user/repo" ++ "/get/" ++ "master" ++ ".zip",
         takeStr 19 "2014-03-12T10:00:00+00:00"⟩)
    ∧ synthVersion (takeStr 19 "2014-03-12T10:00:00+00:00") = "2014.03.12T10.00.00"
    ∧ synthVersion (takeStr 19 "2014-03-12 10:00:00+00:00") = "2014.03.12.10.00.00" :=
  download_info_version_synthesized_from_timestamp envTstamp false
    "https://bitbucket.org/user/repo" "user/repo" "master"
    (Json.obj [("timestamp", Json.str "2014-03-12T10:00:00+00:00")])
    "2014-03-12T10:00:00+00:00" (by rfl) (by rfl) (by rfl) (by rfl)

/-- C2: for a tag-listing URL whose tag-name collection is empty after
semantic-version filtering under the prerelease setting, `download_info`
returns the `False` sentinel (`noCommit`) — not `None` (`noMatch`) and
not an error. -/
theorem download_info_empty_filtered_tags_false_sentinel
    (env : Fetch) (pre : Bool) (url ur : String) (j : Json) (ks : List String)
    (h1 : tagsMatch url = some ur)
    (h2 : env (makeApiUrl ur "/tags") false = Except.ok j)
    (h3 : j.keysE = Except.ok ks)
    (h4 : version_filter ks pre = []) :
    download_info env pre url = Except.ok ClientResult.noCommit := by
  simp only [download_info, commit_info, h1, h2, h3, h4]
  rfl

/-- C2, witness: a tag listing with no semver-parseable names. -/
theorem download_info_empty_filtered_tags_false_sentinel_witness :
    download_info envNoSemverTags false "https://bitbucket.org/u/r#tags" =
      Except.ok ClientResult.noCommit :=
  download_info_empty_filtered_tags_false_sentinel envNoSemverTags false
    "https://bitbucket.org/u/r#tags" "u/r"
    (Json.obj [("tip", Json.null), ("release", Json.null)])
    ["tip", "release"] (by rfl) (by rfl) (by rfl) (by rfl)

/-- C3: a URL matching none of the accepted shapes (repo root,
repo+branch, and the `#tags` form) makes `download_info` return `None`
(`noMatch`) and `repo_info` return `None`, under every oracle — no
fetch influences the answer. -/
theorem no_url_match_both_operations_none
    (env : Fetch) (pre : Bool) (url : String)
    (h1 : tagsMatch url = none) (h2 : repoMatch url = none)
    (h3 : branchMatch url = none) :
    download_info env pre url = Except.ok ClientResult.noMatch
    ∧ repo_info env url = Except.ok none := by
  have hu : userRepoBranch env url = Except.ok none := by
    simp only [userRepoBranch, h2, h3]
  constructor
  · simp only [download_info, commit_info, h1, hu]
  · simp only [repo_info, hu]

/-- C3, witness: a deep path matching no accepted shape. -/
theorem no_url_match_both_operations_none_witness :
    download_info envFail false "https://bitbucket.org/user/repo/extra/stuff" =
      Except.ok ClientResult.noMatch
    ∧ repo_info envFail "https://bitbucket.org/user/repo/extra/stuff" = Except.ok none :=
  no_url_match_both_operations_none envFail false
    "https://bitbucket.org/user/repo/extra/stuff" (by rfl) (by rfl) (by rfl)

/-- C4: for a tag-listing URL, `download_info` filters the fetched tag
names through `version_filter` under the prerelease setting, sorts them
descending with `version_sort`, selects the first tag, and reports as
version that tag with one leading `v` stripped; on
`["v1.0.0", "v2.0.0", "v1.5.0"]` with prereleases disallowed the
selected tag is `"v2.0.0"` and the version `"2.0.0"`. -/
theorem download_info_tags_highest_version_selected
    (env : Fetch) (pre : Bool) (url ur : String) (j : Json) (ks : List String)
    (t : String) (rest : List String) (cj : Json) (ts : String)
    (h1 : tagsMatch url = some ur)
    (h2 : env (makeApiUrl ur "/tags") false = Except.ok j)
    (h3 : j.keysE = Except.ok ks)
    (h4 : version_sort (version_filter ks pre) true = t :: rest)
    (h5 : env (makeApiUrl ur ("/changesets/" ++ t)) false = Except.ok cj)
    (h6 : cj.getField "timestamp" = Except.ok (Json.str ts)) :
    download_info env pre url =
      Except.ok (ClientResult.found
        ⟨stripLeadingV t,
         "https://bitbucket.org/" ++ ur ++ "/get/" ++ t ++ ".zip",
         takeStr 19 ts⟩)
    ∧ version_sort (version_filter ["v1.0.0", "v2.0.0", "v1.5.0"] false) true
        = ["v2.0.0", "v1.5.0", "v1.0.0"]
    ∧ stripLeadingV "v2.0.0" = "2.0.0" := by
  refine ⟨?_, by rfl, by rfl⟩
  have ht : t ∈ version_sort (version_filter ks pre) true := by
    rw [h4]; exact List.mem_cons_self t rest
  obtain ⟨v, hv⟩ := parse_of_mem_filter (mem_version_sort ht)
  have hne : stripLeadingV t ≠ "" := stripLeadingV_ne_empty hv
  simp only [download_info, commit_info, finishCommit, h1, h2, h3, h4, h5, h6]
  rw [if_pos hne]

/-- C4, witness: the three example tags and the changeset of `v2.0.0`. -/
theorem download_info_tags_highest_version_selected_witness :
    download_info envVTags false "https://bitbucket.org/u/r#tags" =
      Except.ok (ClientResult.found
        ⟨stripLeadingV "v2.0.0",
         "https://bitbucket.org/" ++ "u/r" ++ "/get/" ++ "v2.0.0" ++ ".zip",
         takeStr 19 "2014-03-12 10:00:00"⟩)
    ∧ version_sort (version_filter ["v1.0.0", "v2.0.0", "v1.5.0"] false) true
        = ["v2.0.0", "v1.5.0", "v1.0.0"]
    ∧ stripLeadingV "v2.0.0" = "2.0.0" :=
  download_info_tags_highest_version_selected envVTags false
    "https://bitbucket.org/u/r#tags" "u/r"
    (Json.obj [("v1.0.0", Json.null), ("v2.0.0", Json.null), ("v1.5.0", Json.null)])
    ["v1.0.0", "v2.0.0", "v1.5.0"] "v2.0.0" ["v1.5.0", "v1.0.0"]
    (Json.obj [("timestamp", Json.str "2014-03-12 10:00:00")]) "2014-03-12 10:00:00"
    (by rfl) (by rfl) (by rfl) (by rfl) (by rfl) (by rfl)

/-- C5: the repo-root pattern's `[^/]+` repo segment admits `#`, so
`https://bitbucket.org/user/repo#tags` (no slash before the fragment)
decomposes for `repo_info` as a bare repo root whose repo name is the
literal `repo#tags`; `repo_info` therefore never answers `None` for it,
and with an oracle answering under that name it proceeds through
default-branch discovery and the metadata fetches to a populated
result. -/
theorem repo_info_hash_tags_url_processed_as_repo_root :
    repoMatch "https://bitbucket.org/user/repo#tags" = some "user/repo#tags"
    ∧ (∀ env : Fetch,
        repo_info env "https://bitbucket.org/user/repo#tags" ≠ Except.ok none)
    ∧ repo_info envHashRepo "https://bitbucket.org/user/repo#tags" =
        Except.ok (some
          { name := Json.str "repo", description := Json.str "d",
            homepage := Json.str "w", author := Json.str "user",
            donate := "https://www.gittip.com/on/bitbucket/user/",
            readme := none, issues := none }) := by
  refine ⟨by rfl, ?_, by rfl⟩
  intro env h
  have hr := userRepoBranch_ok_none (repo_info_ok_none h)
  exact absurd hr (by decide)

/-- The readme scan over a listing of `path` entries returns the raw
URL of the first name whose lowercase form is allow-listed. -/
theorem scanEntries_spec (ur br : String) (paths : List String) :
    scanEntries ur br (paths.map fun p => Json.obj [("path", Json.str p)]) =
      Except.ok ((paths.find? fun p => decide (lowerStr p ∈ _readme_filenames)).map
        fun p => "https://bitbucket.org/" ++ ur ++ "/raw/" ++ br ++ "/" ++ p) := by
  induction paths with
  | nil => rfl
  | cons p rest ih =>
      by_cases hp : lowerStr p ∈ _readme_filenames
      · simp [scanEntries, Json.getField, Json.lookup, List.find?, hp]
      · simp [scanEntries, Json.getField, Json.lookup, List.find?, hp, ih]

/-- C6: `_readme_url` scans the fetched root listing in order and
returns the raw-content URL of the first entry whose lowercased filename
is in `_readme_filenames` (`none` when no entry matches); the mixed-case
`README.MD` is in the allow-list after lowercasing. -/
theorem readme_scan_first_case_insensitive_match
    (env : Fetch) (ur br : String) (j : Json) (paths : List String)
    (h1 : env (makeApiUrl ur ("/src/" ++ br ++ "/")) false = Except.ok j)
    (h2 : j.getField "files" =
      Except.ok (Json.arr (paths.map fun p => Json.obj [("path", Json.str p)]))) :
    readmeUrl env ur br false =
      Except.ok ((paths.find? fun p => decide (lowerStr p ∈ _readme_filenames)).map
        fun p => "https://bitbucket.org/" ++ ur ++ "/raw/" ++ br ++ "/" ++ p)
    ∧ lowerStr "README.MD" ∈ _readme_filenames := by
  refine ⟨?_, by decide⟩
  simp only [readmeUrl, h1, h2]
  exact scanEntries_spec ur br paths

/-- C6, witness: the listing `[setup.py, README.MD]` yields the raw URL
of `README.MD`. -/
theorem readme_scan_first_case_insensitive_match_witness :
    readmeUrl envRepo "u/r" "master" false =
      Except.ok (((["setup.py", "README.MD"].find? fun p =>
          decide (lowerStr p ∈ _readme_filenames)).map
        fun p => "https://bitbucket.org/" ++ "u/r" ++ "/raw/" ++ "master" ++ "/" ++ p))
    ∧ lowerStr "README.MD" ∈ _readme_filenames :=
  readme_scan_first_case_insensitive_match envRepo "u/r" "master"
    (Json.obj [("files", Json.arr
      [Json.obj [("path", Json.str "setup.py")],
       Json.obj [("path", Json.str "README.MD")]])])
    ["setup.py", "README.MD"] (by rfl) (by rfl)

/-- C7: in a populated `repo_info` result the `issues` field is the
constructed `https://bitbucket.org/{user}/{repo}/issues` URL exactly
when the fetched `has_issues` is truthy, and absent (`none`) exactly
when it is falsy. -/
theorem repo_info_issues_iff_has_issues
    (env : Fetch) (url ur br : String) (j n d w o hi : Json) (rm : Option String)
    (h1 : userRepoBranch env url = Except.ok (some (ur, br)))
    (h2 : env (makeApiUrl ur "") false = Except.ok j)
    (hn : j.getField "name" = Except.ok n)
    (hd : j.getField "description" = Except.ok d)
    (hw : j.getField "website" = Except.ok w)
    (ho : j.getField "owner" = Except.ok o)
    (hr : readmeUrl env ur br false = Except.ok rm)
    (hi2 : j.getField "has_issues" = Except.ok hi) :
    ∃ r : RepoInfo, repo_info env url = Except.ok (some r)
      ∧ (hi.truthy = true → r.issues = some ("https://bitbucket.org/" ++ ur ++ "/issues"))
      ∧ (hi.truthy = false → r.issues = none) := by
  refine ⟨{ name := n, description := d.pyOr (Json.str "No description provided"),
            homepage := w.pyOr (Json.str url), author := o,
            donate := "https://www.gittip.com/on/bitbucket/" ++ o.pyStr ++ "/",
            readme := rm,
            issues := if hi.truthy then
              some ("https://bitbucket.org/" ++ ur ++ "/issues") else none },
          ?_, ?_, ?_⟩
  · simp only [repo_info, h1, h2, hn, hd, hw, ho, hr, hi2]
  · intro h; simp only [h, if_true]
  · intro h; simp only [h, Bool.false_eq_true, if_false]

/-- C7, witness: issue tracking enabled yields the issues URL. -/
theorem repo_info_issues_iff_has_issues_witness :
    ∃ r : RepoInfo, repo_info envRepo "https://bitbucket.org/u/r" = Except.ok (some r)
      ∧ ((Json.bool true).truthy = true →
          r.issues = some ("https://bitbucket.org/" ++ "u/r" ++ "/issues"))
      ∧ ((Json.bool true).truthy = false → r.issues = none) :=
  repo_info_issues_iff_has_issues envRepo "https://bitbucket.org/u/r" "u/r" "master"
    (Json.obj
      [("name", Json.str "r"), ("description", Json.str ""), ("website", Json.str ""),
       ("owner", Json.str "alice"), ("has_issues", Json.bool true)])
    (Json.str "r") (Json.str "") (Json.str "") (Json.str "alice") (Json.bool true)
    (some "https://bitbucket.org/u/r/raw/master/README.MD")
    (by rfl) (by rfl) (by rfl) (by rfl) (by rfl) (by rfl) (by rfl) (by rfl)

/-- C8: in a populated `repo_info` result an empty fetched description
falls back to the placeholder `No description provided` and an empty
fetched website makes `homepage` the original input URL; truthy fetched
values are used unchanged. -/
theorem repo_info_description_homepage_fallbacks
    (env : Fetch) (url ur br : String) (j n d w o hi : Json) (rm : Option String)
    (h1 : userRepoBranch env url = Except.ok (some (ur, br)))
    (h2 : env (makeApiUrl ur "") false = Except.ok j)
    (hn : j.getField "name" = Except.ok n)
    (hd : j.getField "description" = Except.ok d)
    (hw : j.getField "website" = Except.ok w)
    (ho : j.getField "owner" = Except.ok o)
    (hr : readmeUrl env ur br false = Except.ok rm)
    (hi2 : j.getField "has_issues" = Except.ok hi) :
    ∃ r : RepoInfo, repo_info env url = Except.ok (some r)
      ∧ (d = Json.str "" → r.description = Json.str "No description provided")
      ∧ (d.truthy = true → r.description = d)
      ∧ (w = Json.str "" → r.homepage = Json.str url)
      ∧ (w.truthy = true → r.homepage = w) := by
  refine ⟨{ name := n, description := d.pyOr (Json.str "No description provided"),
            homepage := w.pyOr (Json.str url), author := o,
            donate := "https://www.gittip.com/on/bitbucket/" ++ o.pyStr ++ "/",
            readme := rm,
            issues := if hi.truthy then
              some ("https://bitbucket.org/" ++ ur ++ "/issues") else none },
          ?_, ?_, ?_, ?_, ?_⟩
  · simp only [repo_info, h1, h2, hn, hd, hw, ho, hr, hi2]
  · intro h; subst h; rfl
  · intro h; simp only [Json.pyOr, h, if_true]
  · intro h; subst h; rfl
  · intro h; simp only [Json.pyOr, h, if_true]

/-- C8, witness: empty description and website fall back to the
placeholder and the input URL. -/
theorem repo_info_description_homepage_fallbacks_witness :
    ∃ r : RepoInfo, repo_info envRepo "https://bitbucket.org/u/r" = Except.ok (some r)
      ∧ (Json.str "" = Json.str "" →
          r.description = Json.str "No description provided")
      ∧ ((Json.str "").truthy = true → r.description = Json.str "")
      ∧ (Json.str "" = Json.str "" →
          r.homepage = Json.str "https://bitbucket.org/u/r")
      ∧ ((Json.str "").truthy = true → r.homepage = Json.str "") :=
  repo_info_description_homepage_fallbacks envRepo "https://bitbucket.org/u/r" "u/r"
    "master"
    (Json.obj
      [("name", Json.str "r"), ("description", Json.str ""), ("website", Json.str ""),
       ("owner", Json.str "alice"), ("has_issues", Json.bool true)])
    (Json.str "r") (Json.str "") (Json.str "") (Json.str "alice") (Json.bool true)
    (some "https://bitbucket.org/u/r/raw/master/README.MD")
    (by rfl) (by rfl) (by rfl) (by rfl) (by rfl) (by rfl) (by rfl) (by rfl)

/-- C9: whenever `download_info` returns a populated structure, its
`url` is the zip URL `https://bitbucket.org/{user_repo}/get/{commit}.zip`
for the resolved repo and commit-or-tag, and its `date` is the fetched
commit timestamp truncated to 19 characters (second precision). -/
theorem download_info_url_and_date_shape
    (env : Fetch) (pre : Bool) (url : String) (d : DownloadInfo)
    (h : download_info env pre url = Except.ok (ClientResult.found d)) :
    ∃ ur c j ts, env (makeApiUrl ur ("/changesets/" ++ c)) false = Except.ok j
      ∧ j.getField "timestamp" = Except.ok (Json.str ts)
      ∧ d.url = "https://bitbucket.org/" ++ ur ++ "/get/" ++ c ++ ".zip"
      ∧ d.date = takeStr 19 ts := by
  unfold download_info at h
  split at h
  · cases h
  · cases h
  · cases h
  · rename_i ci hc
    simp only [Except.ok.injEq, ClientResult.found.injEq] at h
    obtain ⟨j, ts, hj, hg, hts⟩ := commit_info_found hc
    refine ⟨ci.user_repo, ci.commit, j, ts, hj, hg, ?_, ?_⟩
    · rw [← h]
    · rw [← h]; exact hts

/-- C9, witness at the concrete oracle. -/
theorem download_info_url_and_date_shape_witness :
    ∃ ur c j ts, envTstamp (makeApiUrl ur ("/changesets/" ++ c)) false = Except.ok j
      ∧ j.getField "timestamp" = Except.ok (Json.str ts)
      ∧ (⟨"2014.03.12T10.00.00", "https://bitbucket.org/user/repo/get/master.zip",
          "2014-03-12T10:00:00"⟩ : DownloadInfo).url =
            "https://bitbucket.org/" ++ ur ++ "/get/" ++ c ++ ".zip"
      ∧ (⟨"2014.03.12T10.00.00", "https://bitbucket.org/user/repo/get/master.zip",
          "2014-03-12T10:00:00"⟩ : DownloadInfo).date = takeStr 19 ts :=
  download_info_url_and_date_shape envTstamp false "https://bitbucket.org/user/repo"
    ⟨"2014.03.12T10.00.00", "https://bitbucket.org/user/repo/get/master.zip",
     "2014-03-12T10:00:00"⟩ (by rfl)

/-- C10: every fetch-JSON failure propagates to the caller unmodified —
for each of the five fetch sites of the module (tag listing, changesets
on either path, default-branch discovery, repository metadata, root
listing), if that call returns `Except.error e` while every call made
before it on the same control path succeeded, the public operation
returns exactly `Except.error e`: no retry, no wrapping, no catching,
and no partial result. -/
theorem fetch_errors_propagate_unmodified
    (env : Fetch) (pre : Bool) (url ur c t : String) (e : Err)
    (j jm n d w o : Json) (ks : List String) (rest : List String) :
    (tagsMatch url = some ur →
      env (makeApiUrl ur "/tags") false = Except.error e →
      download_info env pre url = Except.error e)
    ∧ (tagsMatch url = some ur →
      env (makeApiUrl ur "/tags") false = Except.ok j →
      j.keysE = Except.ok ks →
      version_sort (version_filter ks pre) true = t :: rest →
      env (makeApiUrl ur ("/changesets/" ++ t)) false = Except.error e →
      download_info env pre url = Except.error e)
    ∧ (repoMatch url = some ur →
      env (makeApiUrl ur "/main-branch") true = Except.error e →
      (tagsMatch url = none → download_info env pre url = Except.error e)
      ∧ repo_info env url = Except.error e)
    ∧ (tagsMatch url = none →
      userRepoBranch env url = Except.ok (some (ur, c)) →
      env (makeApiUrl ur ("/changesets/" ++ c)) false = Except.error e →
      download_info env pre url = Except.error e)
    ∧ (userRepoBranch env url = Except.ok (some (ur, c)) →
      env (makeApiUrl ur "") false = Except.error e →
      repo_info env url = Except.error e)
    ∧ (userRepoBranch env url = Except.ok (some (ur, c)) →
      env (makeApiUrl ur "") false = Except.ok jm →
      jm.getField "name" = Except.ok n →
      jm.getField "description" = Except.ok d →
      jm.getField "website" = Except.ok w →
      jm.getField "owner" = Except.ok o →
      env (makeApiUrl ur ("/src/" ++ c ++ "/")) false = Except.error e →
      repo_info env url = Except.error e) := by
  refine ⟨?_, ?_, ?_, ?_, ?_, ?_⟩
  · intro h1 h2
    simp only [download_info, commit_info, h1, h2]
  · intro h1 h2 h3 h4 h5
    simp only [download_info, commit_info, finishCommit, h1, h2, h3, h4, h5]
  · intro h1 h2
    have hu : userRepoBranch env url = Except.error e := by
      simp only [userRepoBranch, mainBranchName, h1, h2]
    exact ⟨fun ht => by simp only [download_info, commit_info, ht, hu],
           by simp only [repo_info, hu]⟩
  · intro h1 h2 h3
    simp only [download_info, commit_info, finishCommit, h1, h2, h3]
  · intro h1 h2
    simp only [repo_info, h1, h2]
  · intro h1 h2 h3 h4 h5 h6 h7
    simp only [repo_info, readmeUrl, h1, h2, h3, h4, h5, h6, h7]

/-- C10, witness: on an oracle whose early fetches succeed and whose
later ones fail, the changeset failure after a successful tag listing,
the changeset failure after successful default-branch discovery, and
the root-listing failure after successful metadata field accesses each
surface verbatim. -/
theorem fetch_errors_propagate_unmodified_witness :
    download_info envLateFail false "https://bitbucket.org/u/r#tags" =
      Except.error (Err.downloader "late boom")
    ∧ download_info envLateFail false "https://bitbucket.org/u/r" =
      Except.error (Err.downloader "late boom")
    ∧ repo_info envLateFail "https://bitbucket.org/u/r" =
      Except.error (Err.downloader "late boom") :=
  ⟨(fetch_errors_propagate_unmodified envLateFail false
      "https://bitbucket.org/u/r#tags" "u/r" "master" "v1.0.0"
      (Err.downloader "late boom") (Json.obj [("v1.0.0", Json.null)]) Json.null
      Json.null Json.null Json.null Json.null ["v1.0.0"] []).2.1
    (by rfl) (by rfl) (by rfl) (by rfl) (by rfl),
   (fetch_errors_propagate_unmodified envLateFail false
      "https://bitbucket.org/u/r" "u/r" "master" "v1.0.0"
      (Err.downloader "late boom") Json.null Json.null
      Json.null Json.null Json.null Json.null ["v1.0.0"] []).2.2.2.1
    (by rfl) (by rfl) (by rfl),
   (fetch_errors_propagate_unmodified envLateFail false
      "https://bitbucket.org/u/r" "u/r" "master" "v1.0.0"
      (Err.downloader "late boom") Json.null
      (Json.obj
        [("name", Json.str "r"), ("description", Json.str ""),
         ("website", Json.str ""), ("owner", Json.str "alice"),
         ("has_issues", Json.bool true)])
      (Json.str "r") (Json.str "") (Json.str "") (Json.str "alice")
      ["v1.0.0"] []).2.2.2.2.2
    (by rfl) (by rfl) (by rfl) (by rfl) (by rfl) (by rfl) (by rfl)⟩
